import Mathlib

/-!
Verification of the agent-c runtime against its specification.

Shallow embedding of the C sources:
  * src/src/tool.c            — tool registry and execution
  * src/src/agent.c           — ReAct loop and agent run
  * src/libs/ac_core/src/session.c                    — session lifecycle
  * src/libs/ac_core/src/llm/providers/anthropic.c    — Anthropic request body
  * src/libs/ac_core/src/mcp/mcp.c                    — transport selection
  * src/libs/ac_core/src/mcp/mcp_sse.c                — SSE request/response matching
  * src/libs/ac_hosted/src/http_pool/http_pool.c      — HTTP connection pool

Machine integers are modelled as Int/Nat; the external cJSON library is
modelled by an abstract parse function supplied as a parameter, and the
LLM HTTP drivers (whose implementation is not part of the core sources)
are modelled as oracles giving the outcome of each driver invocation.
-/

/-- Error codes as in arc/error.h; the agentc_err_t enum of the agent core
carries the same integer values (AGENTC_OK = 0, negative codes for errors). -/
abbrev agentc_err : Type := Int

/-- Success code (AGENTC_OK / ARC_OK = 0). -/
def AGENTC_OK : agentc_err := 0

/-- Invalid-argument error code. -/
def AGENTC_ERR_INVALID_ARG : agentc_err := -1

/-- Out-of-memory error code. -/
def AGENTC_ERR_NO_MEMORY : agentc_err := -2

/-- Timeout error code. -/
def AGENTC_ERR_TIMEOUT : agentc_err := -5

/-- HTTP error code. -/
def AGENTC_ERR_HTTP : agentc_err := -7

/-- Not-connected error code. -/
def AGENTC_ERR_NOT_CONNECTED : agentc_err := -13

/-- Values of the external cJSON library: the payload handed to tool
handlers after cJSON_Parse / cJSON_CreateObject. -/
inductive JsonValue where
  | null
  | bool (b : Bool)
  | num (n : Int)
  | str (s : String)
  | arr (items : List JsonValue)
  | obj (fields : List (String × JsonValue))

/-- agentc_tool_call_t (include/agentc/tool.h): one tool invocation request
produced by the LLM.  The char* fields id and arguments may be NULL. -/
structure agentc_tool_call where
  id : Option String
  name : String
  arguments : Option String
deriving DecidableEq, Repr

/-- agentc_tool_result_t (include/agentc/tool.h). -/
structure agentc_tool_result where
  tool_call_id : Option String
  output : Option String
  is_error : Bool
deriving DecidableEq, Repr

/-- agentc_tool_t (include/agentc/tool.h): a registry entry.  The handler
receives the parsed cJSON arguments and returns its status code together
with the output string it stored through the output parameter (none when
it left *output = NULL). -/
structure agentc_tool where
  name : String
  handler : JsonValue → agentc_err × Option String

/-- The registry keeps its tools in a linked list in registration order
(struct agentc_tool_registry, src/src/tool.c). -/
abbrev agentc_tool_registry : Type := List agentc_tool

/-- agentc_tool_get (src/src/tool.c): linear scan for the first tool whose
name matches by strcmp. -/
def agentc_tool_get (registry : agentc_tool_registry) (name : String) : Option agentc_tool :=
  registry.find? (fun t => t.name == name)

/-- Argument resolution of agentc_tool_execute (src/src/tool.c, lines
313-325): a non-empty arguments string goes through cJSON_Parse (none =
parse failure / NULL); an empty or NULL arguments string becomes the
empty object from cJSON_CreateObject. -/
def tool_parsed_args (cjson_parse : String → Option JsonValue)
    (arguments : Option String) : Option JsonValue :=
  match arguments with
  | some s => if s.length > 0 then cjson_parse s else some (JsonValue.obj [])
  | none => some (JsonValue.obj [])

/-- agentc_tool_execute (src/src/tool.c, lines 292-352).  cjson_parse models
cJSON_Parse of the external cJSON library.
Returns the C status code together with the filled-in result struct. -/
def agentc_tool_execute (cjson_parse : String → Option JsonValue)
    (registry : agentc_tool_registry) (call : agentc_tool_call) :
    agentc_err × agentc_tool_result :=
  match agentc_tool_get registry call.name with
  | none =>
      (AGENTC_OK,
       { tool_call_id := call.id,
         output := some "\x7b\"error\": \"tool not found\"\x7d",
         is_error := true })
  | some tool =>
      match tool_parsed_args cjson_parse call.arguments with
      | none =>
          (AGENTC_OK,
           { tool_call_id := call.id,
             output := some "\x7b\"error\": \"invalid arguments JSON\"\x7d",
             is_error := true })
      | some args =>
          let out := tool.handler args
          if out.1 ≠ AGENTC_OK then
            (AGENTC_OK,
             { tool_call_id := call.id,
               output := some (out.2.getD
                 ("\x7b\"error\": \"execution failed with code " ++ toString out.1 ++ "\"\x7d")),
               is_error := true })
          else
            (AGENTC_OK,
             { tool_call_id := call.id,
               output := some (out.2.getD "\x7b\x7d"),
               is_error := false })

/-- agentc_tool_execute_all (src/src/tool.c): executes the calls in list
order, collecting the results in the same order (the only non-OK return
is out-of-memory, which is not modelled). -/
def agentc_tool_execute_all (cjson_parse : String → Option JsonValue)
    (registry : agentc_tool_registry) (calls : List agentc_tool_call) :
    List agentc_tool_result :=
  calls.map (fun c => (agentc_tool_execute cjson_parse registry c).2)

/-- agentc_role_t (include/agentc/llm.h). -/
inductive agentc_role where
  | system
  | user
  | assistant
  | tool
deriving DecidableEq, Repr

/-- agentc_message_t (include/agentc/llm.h), data fields only (the next
pointer becomes the list structure; the optional name field is unused by
the ReAct loop). -/
structure agentc_message where
  role : agentc_role
  content : Option String
  tool_call_id : Option String
  tool_calls : List agentc_tool_call
deriving DecidableEq, Repr

/-- Modelled from the spec: agentc_message_create is declared in
include/agentc/llm.h but its implementation is not under src/.  Following
the header documentation and the sibling ac_message_create
(src/libs/ac_core/src/llm/message/message.c), it builds a message with
the given role and content and empty optional fields. -/
def agentc_message_create (role : agentc_role) (content : Option String) : agentc_message :=
  { role := role, content := content, tool_call_id := none, tool_calls := [] }

/-- Modelled from the spec: agentc_message_create_assistant_tool_calls is
declared in include/agentc/llm.h but its implementation is not under
src/.  It builds an assistant message carrying the optional text content
and the tool calls. -/
def agentc_message_create_assistant_tool_calls (content : Option String)
    (calls : List agentc_tool_call) : agentc_message :=
  { role := .assistant, content := content, tool_call_id := none, tool_calls := calls }

/-- Modelled from the spec: agentc_message_create_tool_result is declared
in include/agentc/llm.h but its implementation is not under src/.
Following the header documentation and the sibling
ac_message_create_tool_result (which returns NULL when tool_call_id is
NULL, in which case agent.c skips the append), it builds a tool-role
message when the id is present. -/
def agentc_message_create_tool_result (tool_call_id : Option String)
    (output : Option String) : Option agentc_message :=
  tool_call_id.map (fun i =>
    { role := .tool, content := output, tool_call_id := some i, tool_calls := [] })

/-- agentc_agent_hooks_t (include/agentc/agent.h): abort-capable callbacks.
A hook is modelled by the integer it returns on the data it is given;
non-zero aborts.  on_complete and on_error only notify and cannot change
any state, so they are not carried in the model. -/
structure agentc_agent_hooks where
  on_start : Option (String → Int)
  on_content : Option (String → Int)
  on_tool_call : Option (List agentc_tool_call → Int)
  on_tool_result : Option (List agentc_tool_result → Int)

/-- Evaluates an optional abort-capable hook exactly as the C does:
a NULL hook never aborts, otherwise non-zero return aborts. -/
def hook_aborts {α : Type} (hook : Option (α → Int)) (x : α) : Bool :=
  match hook with
  | none => false
  | some f => f x != 0

/-- The on_content notification of the blocking branch (src/src/agent.c,
lines 254-263): the hook runs only when both the hook and the response
content are non-NULL, and a non-zero return aborts. -/
def content_hook_aborts (hook : Option (String → Int)) (content : Option String) : Bool :=
  match hook, content with
  | some f, some c => f c != 0
  | _, _ => false

/-- AGENTC_AGENT_DEFAULT_MAX_ITERATIONS (include/agentc/agent.h). -/
def AGENTC_AGENT_DEFAULT_MAX_ITERATIONS : Nat := 10

/-- The fields of agentc_agent_config_t (include/agentc/agent.h) that feed
the control flow of the run.  name, max_tokens, temperature, tool_choice
and parallel_tool_calls only parameterize the outgoing chat request and
are consumed by the abstract LLM driver. -/
structure agentc_agent_config where
  tools : Option agentc_tool_registry
  instructions : Option String
  max_iterations : Int
  stream : Bool
  hooks : agentc_agent_hooks

/-- struct agentc_agent (src/src/agent.c), control-flow fields. -/
structure agentc_agent where
  tools : Option agentc_tool_registry
  instructions : Option String
  max_iterations : Nat
  stream : Bool
  hooks : agentc_agent_hooks

/-- agentc_agent_create (src/src/agent.c, lines 41-86): copies the
configuration, replacing a non-positive max_iterations by the default 10. -/
def agentc_agent_create (config : agentc_agent_config) : agentc_agent :=
  { tools := config.tools,
    instructions := config.instructions,
    max_iterations :=
      if config.max_iterations > 0 then config.max_iterations.toNat
      else AGENTC_AGENT_DEFAULT_MAX_ITERATIONS,
    stream := config.stream,
    hooks := config.hooks }

/-- agentc_chat_response_t (include/agentc/llm.h), the fields read by the
ReAct loop.  tool_calls = [] models a NULL tool_calls pointer. -/
structure agentc_chat_response where
  content : Option String
  finish_reason : Option String
  tool_calls : List agentc_tool_call
  total_tokens : Nat
deriving DecidableEq, Repr

/-- Outcome of one agentc_llm_chat driver invocation (blocking mode). -/
inductive chat_outcome where
  | fail (e : agentc_err)
  | ok (resp : agentc_chat_response)
deriving DecidableEq, Repr

/-- Outcome of one agentc_llm_chat_stream driver invocation: the content
accumulated in the stream buffer, whether the agent stream callback
aborted (stream_ctx.aborted), and the driver status code. -/
structure stream_outcome where
  content : String
  aborted : Bool
  status : agentc_err

/-- Environment of a run: the outcome of the i-th LLM driver invocation
(the driver implementation is not part of the core sources), and the
external cJSON parse function used for tool arguments. -/
structure llm_env where
  chat : Nat → chat_outcome
  chat_stream : Nat → stream_outcome
  cjson_parse : String → Option JsonValue

/-- agentc_run_status_t (include/agentc/agent.h). -/
inductive agentc_run_status where
  | success
  | max_iterations
  | error
  | aborted
deriving DecidableEq, Repr

/-- agentc_run_result_t (include/agentc/agent.h). -/
structure agentc_run_result where
  status : agentc_run_status
  final_output : Option String
  iterations : Nat
  total_tokens : Nat
  error_code : agentc_err
deriving DecidableEq, Repr

/-- How one iteration of the ReAct loop body ends: halt carries the final
status, output, error code, the tokens added by this iteration and the
message history at exit; next continues the loop. -/
inductive react_exit where
  | halt (status : agentc_run_status) (output : Option String) (ecode : agentc_err)
         (tokens_add : Nat) (msgs : List agentc_message)
  | next (tokens_add : Nat) (msgs : List agentc_message)

/-- The part of the ReAct loop body after a successful LLM response
(src/src/agent.c, lines 266-357): add tokens, detect tool calls, execute
them and append the assistant and tool-result messages, or finish with
the text response. -/
def react_after_response (agent : agentc_agent) (env : llm_env)
    (msgs : List agentc_message) (resp : agentc_chat_response) : react_exit :=
  let has_tool_calls := resp.tool_calls ≠ []
  let is_tool_calls_finish := resp.finish_reason = some "tool_calls"
  if has_tool_calls ∨ is_tool_calls_finish then
    match agent.tools with
    | none => .halt .error none AGENTC_ERR_INVALID_ARG resp.total_tokens msgs
    | some registry =>
        if hook_aborts agent.hooks.on_tool_call resp.tool_calls then
          .halt .aborted none AGENTC_OK resp.total_tokens msgs
        else
          let msgs1 := msgs ++
            [agentc_message_create_assistant_tool_calls resp.content resp.tool_calls]
          let results := agentc_tool_execute_all env.cjson_parse registry resp.tool_calls
          if hook_aborts agent.hooks.on_tool_result results then
            .halt .aborted none AGENTC_OK resp.total_tokens msgs1
          else
            .next resp.total_tokens (msgs1 ++ results.filterMap
              (fun r => agentc_message_create_tool_result r.tool_call_id r.output))
  else
    .halt .success resp.content AGENTC_OK resp.total_tokens msgs

/-- One iteration of the ReAct loop body (src/src/agent.c, lines 172-357):
one LLM driver invocation through the streaming or the blocking branch,
followed by react_after_response.  call_idx is the 0-based index of this
driver invocation. -/
def react_step (agent : agentc_agent) (env : llm_env) (call_idx : Nat)
    (msgs : List agentc_message) : react_exit :=
  if agent.stream then
    let so := env.chat_stream call_idx
    if so.aborted then .halt .aborted none AGENTC_OK 0 msgs
    else if so.status ≠ AGENTC_OK then .halt .error none so.status 0 msgs
    else
      react_after_response agent env msgs
        { content := some so.content, finish_reason := some "stop",
          tool_calls := [], total_tokens := 0 }
  else
    match env.chat call_idx with
    | .fail e => .halt .error none e 0 msgs
    | .ok resp =>
        if content_hook_aborts agent.hooks.on_content resp.content then
          .halt .aborted none AGENTC_OK 0 msgs
        else react_after_response agent env msgs resp

/-- run_react_loop (src/src/agent.c, lines 159-369), with the for loop as
fuel recursion: fuel is the number of remaining iterations, iter_done the
number of iterations already executed, tokens the accumulated
result->total_tokens.  Returns the run result, the final message history
and the number of LLM driver invocations made. -/
def run_react_loop (agent : agentc_agent) (env : llm_env) :
    Nat → Nat → Nat → List agentc_message →
    agentc_run_result × List agentc_message × Nat
  | 0, iter_done, tokens, msgs =>
      ({ status := .max_iterations, final_output := none, iterations := iter_done,
         total_tokens := tokens, error_code := AGENTC_OK }, msgs, 0)
  | fuel + 1, iter_done, tokens, msgs =>
      match react_step agent env iter_done msgs with
      | .halt st out ec tadd msgs1 =>
          ({ status := st, final_output := out, iterations := iter_done + 1,
             total_tokens := tokens + tadd, error_code := ec }, msgs1, 1)
      | .next tadd msgs1 =>
          let r := run_react_loop agent env fuel (iter_done + 1) (tokens + tadd) msgs1
          (r.1, r.2.1, r.2.2 + 1)

/-- The message history agentc_agent_run builds before the loop: an
optional system message from the instructions, then the user message
(src/src/agent.c, lines 395-416). -/
def initial_history (instructions : Option String) (input : String) : List agentc_message :=
  (match instructions with
   | some ins => [agentc_message_create .system (some ins)]
   | none => []) ++ [agentc_message_create .user (some input)]

/-- agentc_agent_run (src/src/agent.c, lines 375-425): on_start hook, then
the initial history, then the ReAct loop.  Returns the run result, the
final message history and the number of LLM driver invocations. -/
def agentc_agent_run (agent : agentc_agent) (env : llm_env) (input : String) :
    agentc_run_result × List agentc_message × Nat :=
  if hook_aborts agent.hooks.on_start input then
    ({ status := .aborted, final_output := none, iterations := 0, total_tokens := 0,
       error_code := AGENTC_OK }, [], 0)
  else
    run_react_loop agent env agent.max_iterations 0 0
      (initial_history agent.instructions input)

/-- Hooks record with every callback NULL. -/
def hooks_none : agentc_agent_hooks :=
  { on_start := none, on_content := none, on_tool_call := none, on_tool_result := none }

/-- A plain text chat response used as concrete input. -/
def text_resp (s : String) : agentc_chat_response :=
  { content := some s, finish_reason := some "stop", tool_calls := [], total_tokens := 0 }

/-- Concrete environment whose driver always returns a text response. -/
def env_text : llm_env :=
  { chat := fun _ => .ok (text_resp "pong"),
    chat_stream := fun _ => { content := "pong", aborted := false, status := AGENTC_OK },
    cjson_parse := fun _ => none }

/-- Concrete agent whose on_start hook aborts the run. -/
def c1_abort_agent : agentc_agent :=
  agentc_agent_create
    { tools := none, instructions := none, max_iterations := 2, stream := false,
      hooks := { hooks_none with on_start := some (fun _ => 1) } }

/-- Concrete hook-free configuration. -/
def c1_cfg : agentc_agent_config :=
  { tools := none, instructions := none, max_iterations := 3, stream := false,
    hooks := hooks_none }

/-- Concrete local tool. -/
def c2_tool : agentc_tool :=
  { name := "now", handler := fun _ => (AGENTC_OK, some "12:00") }

/-- Concrete one-tool registry. -/
def c2_reg : agentc_tool_registry := [c2_tool]

/-- Concrete first response requesting a tool call. -/
def c2_resp : agentc_chat_response :=
  { content := some "use tool", finish_reason := some "tool_calls",
    tool_calls := [{ id := some "t1", name := "now", arguments := some "" }],
    total_tokens := 2 }

/-- Concrete environment whose driver always requests the tool call. -/
def c2_env : llm_env :=
  { chat := fun _ => .ok c2_resp,
    chat_stream := fun _ => { content := "", aborted := false, status := AGENTC_OK },
    cjson_parse := fun _ => none }

/-- Concrete configuration with max_iterations = 1 and the tool registry. -/
def c2_cfg : agentc_agent_config :=
  { tools := some c2_reg, instructions := none, max_iterations := 1, stream := false,
    hooks := hooks_none }

/-- Concrete cJSON model for witnesses: only the literal empty-object
source text parses; every other string fails to parse. -/
def parse_strict : String → Option JsonValue := fun s =>
  if s = "\x7b\x7d" then some (JsonValue.obj []) else none

/-- Concrete tool whose handler always succeeds with a fixed output. -/
def c3_tool : agentc_tool :=
  { name := "t", handler := fun _ => (AGENTC_OK, some "HANDLED") }

/-- Concrete one-tool registry. -/
def c3_reg : agentc_tool_registry := [c3_tool]

/-- Concrete call with a non-empty arguments string that is not JSON. -/
def c3_call : agentc_tool_call :=
  { id := some "c1", name := "t", arguments := some "oops" }

/-- Concrete tool whose handler fails with the HTTP error code and leaves
the output NULL. -/
def c4_fail_tool : agentc_tool :=
  { name := "boom", handler := fun _ => (AGENTC_ERR_HTTP, none) }

/-- Concrete registry for the failing handler. -/
def c4_reg : agentc_tool_registry := [c4_fail_tool]

/-- Concrete call naming a tool that is not registered. -/
def c4_missing_call : agentc_tool_call :=
  { id := some "x1", name := "nosuch", arguments := none }

/-- Concrete call for the failing handler. -/
def c4_fail_call : agentc_tool_call :=
  { id := some "x2", name := "boom", arguments := none }

/-- MAX_AGENTS (src/libs/ac_core/src/session.c). -/
def MAX_AGENTS : Nat := 32

/-- struct ac_session (src/libs/ac_core/src/session.c): the slots
agents[0 .. agent_count-1] in creation order, modelled as a list of
numeric agent handles (ac_session_add_agent rejects NULL, so every
stored slot is a valid handle and agent_count is the list length). -/
structure ac_session where
  agents : List Nat
deriving DecidableEq, Repr

/-- ac_session_open (src/libs/ac_core/src/session.c): empty session. -/
def ac_session_open : ac_session := { agents := [] }

/-- ac_session_add_agent (src/libs/ac_core/src/session.c, lines 61-73):
fails when the session already holds MAX_AGENTS agents, otherwise stores
the agent in the next slot. -/
def ac_session_add_agent (s : ac_session) (agent : Nat) : agentc_err × ac_session :=
  if s.agents.length ≥ MAX_AGENTS then (AGENTC_ERR_NO_MEMORY, s)
  else (AGENTC_OK, { agents := s.agents ++ [agent] })

/-- Events observable while a session is closed. -/
inductive session_event where
  | destroy_agent (id : Nat)
  | free_session
deriving DecidableEq, Repr

/-- ac_session_close (src/libs/ac_core/src/session.c, lines 40-55) as the
trace of its observable events: ac_agent_destroy on agents[i] for
i = 0, 1, ..., agent_count-1 in increasing index order, then free of the
session storage. -/
def ac_session_close (s : ac_session) : List session_event :=
  s.agents.map session_event.destroy_agent ++ [session_event.free_session]

/-- A session populated by registering the given agents in order. -/
def session_with_agents (ids : List Nat) : ac_session :=
  ids.foldl (fun s id => (ac_session_add_agent s id).2) ac_session_open

/-- ac_role_to_string (src/libs/ac_core/src/llm/message/message.c); the
ac_role_t enum has the same four constructors as agentc_role_t, so the
agentc_role type is reused.  The C default branch returning user is
unreachable over the enum values. -/
def ac_role_to_string : agentc_role → String
  | .system => "system"
  | .user => "user"
  | .assistant => "assistant"
  | .tool => "tool"

/-- ac_message_t (libs/ac_core/include/agentc/message.h), data fields. -/
structure ac_message where
  role : agentc_role
  content : Option String
  tool_call_id : Option String
deriving DecidableEq, Repr

/-- The fields of ac_llm_params_t read by the request-body construction of
anthropic_chat (model, instructions, max_tokens). -/
structure ac_llm_params where
  model : String
  instructions : Option String
  max_tokens : Int
deriving DecidableEq, Repr

/-- The JSON body anthropic_chat builds: model, max_tokens, the optional
top-level system field, and the messages array of (role string, optional
content) entries in message order. -/
structure anthropic_body where
  model : String
  max_tokens : Int
  system : Option String
  messages : List (String × Option String)
deriving DecidableEq, Repr

/-- Request-body construction of anthropic_chat
(src/libs/ac_core/src/llm/providers/anthropic.c, lines 121-152): the
system field carries params->instructions when present; messages with
the system role are skipped; every other message becomes an entry with
its role string and its content when non-NULL. -/
def anthropic_build_body (params : ac_llm_params) (messages : List ac_message) :
    anthropic_body :=
  { model := params.model,
    max_tokens := if params.max_tokens > 0 then params.max_tokens else 4096,
    system := params.instructions,
    messages := (messages.filter (fun m => m.role != agentc_role.system)).map
      (fun m => (ac_role_to_string m.role, m.content)) }

/-- Concrete Anthropic parameters with no instructions. -/
def c6_params : ac_llm_params :=
  { model := "claude", instructions := none, max_tokens := 0 }

/-- Concrete Anthropic parameters with instructions. -/
def c6_params2 : ac_llm_params :=
  { model := "claude", instructions := some "inst", max_tokens := 100 }

/-- Concrete system message. -/
def c6_sys_msg : ac_message :=
  { role := .system, content := some "S", tool_call_id := none }

/-- Concrete user message. -/
def c6_user_msg : ac_message :=
  { role := .user, content := some "hi", tool_call_id := none }

/-- The two MCP transports ac_mcp_create can construct. -/
inductive mcp_transport_kind where
  | sse
  | streamable_http
deriving DecidableEq, Repr

/-- is_sse_url (src/libs/ac_core/src/mcp/mcp.c, lines 82-95): with
len = strlen(url), compares url + len - 4 with /sse, url + len - 5 with
/sse/ and url + len - 7 with /events by strcmp, each guarded by the
length check.  The C string is modelled by its character list. -/
def is_sse_url (url : Option String) : Bool :=
  match url with
  | none => false
  | some u =>
      let l := u.toList
      if 4 ≤ l.length ∧ l.drop (l.length - 4) = "/sse".toList then true
      else if 5 ≤ l.length ∧ l.drop (l.length - 5) = "/sse/".toList then true
      else if 7 ≤ l.length ∧ l.drop (l.length - 7) = "/events".toList then true
      else false

/-- Transport selection inside ac_mcp_create (src/libs/ac_core/src/mcp/mcp.c,
lines 297-303): mcp_sse_create when is_sse_url holds of the server URL,
mcp_http_create otherwise. -/
def ac_mcp_create_transport (server_url : String) : mcp_transport_kind :=
  if is_sse_url (some server_url) then .sse else .streamable_http

/-- The predicate of the specification, formalised from its words: the URL
ends in /sse, /sse/, or /events (string-suffix reading). -/
def spec_sse_suffix (u : String) : Prop :=
  "/sse".toList <:+ u.toList ∨ "/sse/".toList <:+ u.toList ∨
    "/events".toList <:+ u.toList

/-- One queued JSON-RPC response as stored by sse_on_event
(src/libs/ac_core/src/mcp/mcp_sse.c, lines 190-210): the id extracted
from the parsed body (0 when absent) together with the full body text. -/
structure sse_pending_response where
  id : Int
  json : String
deriving DecidableEq, Repr

/-- The shared state one poll round of sse_request observes under the
mutex: the pending-response queue and the reader-thread flags
sse_running and sse_connected (negative = error).  The reader thread
fills the queue concurrently, so successive rounds may see different
views. -/
structure sse_poll_view where
  responses : List sse_pending_response
  sse_running : Bool
  sse_connected : Int
deriving DecidableEq, Repr

/-- The queue scan of sse_request (src/libs/ac_core/src/mcp/mcp_sse.c,
lines 470-487): the first entry whose id matches the request id is
removed (the entries after it shift left) and its json is taken; no
other entry is touched. -/
def sse_find_response (rid : Int) : List sse_pending_response →
    Option (String × List sse_pending_response)
  | [] => none
  | p :: rest =>
      if p.id = rid then some (p.json, rest)
      else (sse_find_response rid rest).map (fun q => (q.1, p :: q.2))

/-- How the polling wait of sse_request ends. -/
inductive sse_wait_result where
  | found (json : String) (queue_after : List sse_pending_response)
  | reader_dead
  | timed_out
deriving DecidableEq, Repr

/-- The polling loop of sse_request (src/libs/ac_core/src/mcp/mcp_sse.c,
lines 465-497): each round scans the queue for the request id, then
fails if the reader thread has died or is in error, then sleeps 50 ms.
The view at round k comes from the schedule; fuel is the number of
rounds the timeout allows. -/
def sse_wait_loop (sched : Nat → sse_poll_view) (rid : Int) :
    Nat → Nat → sse_wait_result
  | _, 0 => .timed_out
  | k, fuel + 1 =>
      match sse_find_response rid (sched k).responses with
      | some (json, rest) => .found json rest
      | none =>
          if (sched k).sse_running = false ∨ (sched k).sse_connected < 0 then
            .reader_dead
          else sse_wait_loop sched rid (k + 1) fuel

/-- Number of poll rounds the while loop executes for a timeout: the body
runs for elapsed = 0, 50, 100, ... while elapsed < timeout_ms. -/
def sse_poll_rounds (timeout_ms : Nat) : Nat := (timeout_ms + 49) / 50

/-- Outcome of the POST sse_request sends: transport failure, or the HTTP
response with its status code and optional body (the status code is only
logged by sse_request). -/
inductive sse_post_outcome where
  | fail (e : agentc_err)
  | ok (status : Int) (body : Option String)
deriving DecidableEq, Repr

/-- The POST-body short circuit (src/libs/ac_core/src/mcp/mcp_sse.c, lines
437-451): a non-empty POST body that parses as JSON carrying a jsonrpc
field is returned directly.  is_jsonrpc models the external cJSON parse
plus the jsonrpc-field lookup. -/
def sse_direct_body (is_jsonrpc : String → Bool) (body : Option String) : Option String :=
  match body with
  | some b => if b.length > 0 ∧ is_jsonrpc b = true then some b else none
  | none => none

/-- What sse_request hands back to the caller. -/
inductive sse_request_result where
  | err (e : agentc_err)
  | direct (json : String)
  | notification_sent
  | queued (json : String) (queue_after : List sse_pending_response)
deriving DecidableEq, Repr

/-- sse_request (src/libs/ac_core/src/mcp/mcp_sse.c, lines 381-501):
not-connected check, POST, POST-body short circuit, notification short
circuit for id 0, then the polling wait bounded by timeout_ms; a timeout
returns AGENTC_ERR_TIMEOUT, a dead reader AGENTC_ERR_NOT_CONNECTED. -/
def sse_request (connected : Bool) (endpoint : Option String)
    (post : sse_post_outcome) (is_jsonrpc : String → Bool)
    (request_id : Int) (timeout_ms : Nat) (sched : Nat → sse_poll_view) :
    sse_request_result :=
  if connected = false ∨ endpoint = none then .err AGENTC_ERR_NOT_CONNECTED
  else
    match post with
    | .fail e => .err e
    | .ok _ body =>
        match sse_direct_body is_jsonrpc body with
        | some b => .direct b
        | none =>
            if request_id = 0 then .notification_sent
            else
              match sse_wait_loop sched request_id 0 (sse_poll_rounds timeout_ms) with
              | .found json rest => .queued json rest
              | .reader_dead => .err AGENTC_ERR_NOT_CONNECTED
              | .timed_out => .err AGENTC_ERR_TIMEOUT

/-- Concrete poll schedule whose queue always holds one response for id 7. -/
def c7_sched : Nat → sse_poll_view := fun _ =>
  { responses := [{ id := 7, json := "queued7" }], sse_running := true,
    sse_connected := 1 }

/-- The response string a request result delivers to the caller, if any. -/
def sse_response_of : sse_request_result → Option String
  | .direct j => some j
  | .queued j _ => some j
  | _ => none

/-- pool_entry_t (src/libs/ac_hosted/src/http_pool/http_pool.c): the HTTP
client handle (a numeric identity standing for the pointer), the
last-use timestamp and the borrowed flag; the next pointer becomes the
list structure. -/
structure pool_entry where
  client : Nat
  last_used_ms : Nat
  in_use : Bool
deriving DecidableEq, Repr

/-- The pool state protected by the single mutex (struct http_pool_t):
the entries list (newest first, acquire prepends), the counters, the
relevant configuration bounds and the lifecycle flags. -/
structure pool_state where
  entries : List pool_entry
  total_count : Nat
  active_count : Nat
  max_connections : Nat
  idle_timeout_ms : Nat
  waiting_count : Nat
  total_acquires : Nat
  pool_hits : Nat
  pool_misses : Nat
  timeouts : Nat
  initialized : Bool
  shutting_down : Bool
deriving DecidableEq, Repr

/-- 2^64, the modulus of the uint64_t timestamp arithmetic. -/
def UINT64_MOD : Nat := 2 ^ 64

/-- The idle cutoff of cleanup_idle_connections: now - idle_timeout_ms in
uint64_t arithmetic (which wraps when now < idle_timeout_ms). -/
def pool_cutoff (now idle_timeout_ms : Nat) : Nat :=
  (now % UINT64_MOD + (UINT64_MOD - idle_timeout_ms % UINT64_MOD)) % UINT64_MOD

/-- The scan of cleanup_idle_connections
(src/libs/ac_hosted/src/http_pool/http_pool.c, lines 156-178): walks the
entries, unlinking and destroying every idle entry whose last use lies
before the cutoff while the running total stays above one; threads the
running total_count through. -/
def cleanup_loop (cutoff : Nat) : List pool_entry → Nat → List pool_entry × Nat
  | [], total => ([], total)
  | e :: rest, total =>
      if e.in_use = false ∧ e.last_used_ms < cutoff ∧ total > 1 then
        cleanup_loop cutoff rest (total - 1)
      else
        let r := cleanup_loop cutoff rest total
        (e :: r.1, r.2)

/-- cleanup_idle_connections: no-op when idle_timeout_ms is 0, otherwise
the cleanup scan against the cutoff. -/
def cleanup_idle_connections (s : pool_state) (now : Nat) : pool_state :=
  if s.idle_timeout_ms = 0 then s
  else
    let r := cleanup_loop (pool_cutoff now s.idle_timeout_ms) s.entries s.total_count
    { s with entries := r.1, total_count := r.2 }

/-- find_idle_entry followed by marking it borrowed (http_pool.c, lines
132-139 with the mutation of the hit path): the first entry with in_use
clear is marked in use with its timestamp refreshed; none when every
entry is borrowed. -/
def mark_first_idle (now : Nat) : List pool_entry → Option (Nat × List pool_entry)
  | [] => none
  | e :: rest =>
      if e.in_use = false then
        some (e.client, { e with in_use := true, last_used_ms := now } :: rest)
      else
        (mark_first_idle now rest).map (fun q => (q.1, e :: q.2))

/-- What ac_http_pool_acquire hands back (NULL split by its cause). -/
inductive pool_acquire_outcome where
  | acquired (client : Nat)
  | null_not_init
  | null_timeout
  | null_shutdown
deriving DecidableEq, Repr

/-- One wakeup of the acquire wait loop (http_pool.c, lines 368-394):
while-condition shutdown check, then the idle scan; none means the
thread goes back to pthread_cond_timedwait. -/
def pool_wait_step (now : Nat) (s : pool_state) :
    Option (pool_acquire_outcome × pool_state) :=
  if s.shutting_down = true then
    some (.null_shutdown, { s with waiting_count := s.waiting_count - 1 })
  else
    match mark_first_idle now s.entries with
    | some (c, es) =>
        some (.acquired c,
          { s with
            entries := es,
            active_count := s.active_count + 1,
            waiting_count := s.waiting_count - 1,
            pool_hits := s.pool_hits + 1 })
    | none => none

/-- The acquire wait loop: the state a waiter observes after each wakeup
comes from the wakes schedule (releasers mutate the pool while the
waiter sleeps); an empty schedule means pthread_cond_timedwait returns
ETIMEDOUT next. -/
def pool_wait_loop (now : Nat) : List pool_state → pool_state →
    pool_acquire_outcome × pool_state
  | [], s =>
      match pool_wait_step now s with
      | some r => r
      | none =>
          (.null_timeout,
           { s with waiting_count := s.waiting_count - 1, timeouts := s.timeouts + 1 })
  | s1 :: rest, s =>
      match pool_wait_step now s with
      | some r => r
      | none => pool_wait_loop now rest s1

/-- ac_http_pool_acquire (src/libs/ac_hosted/src/http_pool/http_pool.c,
lines 305-401): init/shutdown check, total_acquires bump, idle cleanup,
hit on an idle entry, else creation when capacity remains (create_ok
models whether entry_create succeeds; its failure falls through to the
wait), else the bounded condition-variable wait.  Returns the outcome
and the pool state left behind at the final mutex release. -/
def ac_http_pool_acquire (s : pool_state) (now : Nat) (create_ok : Bool)
    (new_client : Nat) (wakes : List pool_state) :
    pool_acquire_outcome × pool_state :=
  if s.initialized = false ∨ s.shutting_down = true then (.null_not_init, s)
  else
    let s1 := cleanup_idle_connections
      { s with total_acquires := s.total_acquires + 1 } now
    match mark_first_idle now s1.entries with
    | some (c, es) =>
        (.acquired c,
         { s1 with
           entries := es,
           active_count := s1.active_count + 1,
           pool_hits := s1.pool_hits + 1 })
    | none =>
        if s1.total_count < s1.max_connections ∧ create_ok = true then
          (.acquired new_client,
           { s1 with
             entries :=
               { client := new_client, last_used_ms := now, in_use := true } ::
                 s1.entries,
             total_count := s1.total_count + 1,
             active_count := s1.active_count + 1,
             pool_misses := s1.pool_misses + 1 })
        else
          pool_wait_loop now wakes { s1 with waiting_count := s1.waiting_count + 1 }

/-- find_entry_by_client (src/libs/ac_hosted/src/http_pool/http_pool.c,
lines 144-151): linear scan for the first entry whose client pointer
matches. -/
def find_entry_by_client (c : Nat) : List pool_entry → Option pool_entry
  | [] => none
  | e :: rest => if e.client = c then some e else find_entry_by_client c rest

/-- The mutation of the release path: clear in_use and refresh the
timestamp on the first entry whose client matches. -/
def pool_update_entry (c now : Nat) : List pool_entry → List pool_entry
  | [] => []
  | e :: rest =>
      if e.client = c then { e with in_use := false, last_used_ms := now } :: rest
      else e :: pool_update_entry c now rest

/-- ac_http_pool_release (src/libs/ac_hosted/src/http_pool/http_pool.c,
lines 403-441): after the shutdown check, an unknown client or an entry
not marked in use leaves the pool untouched; otherwise the entry is
marked idle, active_count drops and one waiter is signalled.  Returns
the state at the mutex release together with whether the condition
variable was signalled. -/
def ac_http_pool_release (s : pool_state) (c : Nat) (now : Nat) :
    pool_state × Bool :=
  if s.initialized = false then (s, false)
  else
    match find_entry_by_client c s.entries with
    | none => (s, false)
    | some e =>
        if e.in_use = false then (s, false)
        else
          ({ s with
             entries := pool_update_entry c now s.entries,
             active_count := s.active_count - 1 }, true)

/-- Number of borrowed entries. -/
def pool_in_use_count (entries : List pool_entry) : Nat :=
  (entries.filter (fun e => e.in_use)).length

/-- Number of idle entries. -/
def pool_idle_count (entries : List pool_entry) : Nat :=
  (entries.filter (fun e => !e.in_use)).length

/-- The bookkeeping of a well-formed pool: total_count counts the entries
and active_count counts the borrowed ones, with the configured bound
respected. -/
def pool_wf (s : pool_state) : Prop :=
  s.total_count = s.entries.length ∧
  s.active_count = pool_in_use_count s.entries ∧
  s.total_count ≤ s.max_connections

/-- The invariant as the specification states it: total = active + idle,
active at most total, total at most max_connections. -/
def pool_inv (s : pool_state) : Prop :=
  s.total_count = s.active_count + pool_idle_count s.entries ∧
  s.active_count ≤ s.total_count ∧
  s.total_count ≤ s.max_connections

/-- Concrete well-formed pool state with one borrowed and one idle entry. -/
def s8 : pool_state :=
  { entries := [{ client := 1, last_used_ms := 0, in_use := true },
                { client := 2, last_used_ms := 0, in_use := false }],
    total_count := 2, active_count := 1, max_connections := 4,
    idle_timeout_ms := 0, waiting_count := 0, total_acquires := 3,
    pool_hits := 1, pool_misses := 2, timeouts := 0,
    initialized := true, shutting_down := false }

/-- Helper: the number of driver invocations a loop run makes is at most
the remaining fuel and at least one when fuel remains, and the iterations
field equals iter_done plus the invocations made. -/
theorem run_react_loop_call_count (agent : agentc_agent) (env : llm_env) :
    ∀ (fuel iter_done tokens : Nat) (msgs : List agentc_message),
      (run_react_loop agent env fuel iter_done tokens msgs).2.2 ≤ fuel ∧
      (run_react_loop agent env fuel iter_done tokens msgs).1.iterations =
        iter_done + (run_react_loop agent env fuel iter_done tokens msgs).2.2 ∧
      (1 ≤ fuel → 1 ≤ (run_react_loop agent env fuel iter_done tokens msgs).2.2) := by
  intro fuel
  induction fuel with
  | zero =>
      intro iter_done tokens msgs
      simp [run_react_loop]
  | succ n ih =>
      intro iter_done tokens msgs
      rcases hstep : react_step agent env iter_done msgs with
        ⟨st, out, ec, tadd, msgs1⟩ | ⟨tadd, msgs1⟩
      · simp [run_react_loop, hstep]
      · obtain ⟨h1, h2, h3⟩ := ih (iter_done + 1) (tokens + tadd) msgs1
        simp only [run_react_loop, hstep]
        exact ⟨by omega, by omega, fun _ => by omega⟩

/-- C1, counterexample: a run of agentc_agent_run whose on_start hook
aborts makes zero LLM driver invocations, refuting the claimed lower
bound of one invocation per run. -/
theorem agent_run_call_bounds_cex :
    ¬ (1 ≤ (agentc_agent_run c1_abort_agent env_text "hi").2.2 ∧
       (agentc_agent_run c1_abort_agent env_text "hi").2.2 ≤
         c1_abort_agent.max_iterations ∧
       (agentc_agent_run c1_abort_agent env_text "hi").1.iterations =
         (agentc_agent_run c1_abort_agent env_text "hi").2.2) := by
  decide

/-- C1 (amended): for every run of agentc_agent_run on a created agent in
which the on_start hook does not abort, the number of LLM driver
invocations made by run_react_loop is between 1 and the agent
max_iterations inclusive, and the result iterations field equals that
number of invocations. -/
theorem agent_run_call_bounds (config : agentc_agent_config) (env : llm_env)
    (input : String)
    (hstart : hook_aborts config.hooks.on_start input = false) :
    1 ≤ (agentc_agent_run (agentc_agent_create config) env input).2.2 ∧
    (agentc_agent_run (agentc_agent_create config) env input).2.2 ≤
      (agentc_agent_create config).max_iterations ∧
    (agentc_agent_run (agentc_agent_create config) env input).1.iterations =
      (agentc_agent_run (agentc_agent_create config) env input).2.2 := by
  have hmax : 1 ≤ (agentc_agent_create config).max_iterations := by
    simp only [agentc_agent_create]
    split
    · omega
    · decide
  have hagent : (agentc_agent_create config).hooks = config.hooks := rfl
  obtain ⟨h1, h2, h3⟩ := run_react_loop_call_count (agentc_agent_create config) env
      (agentc_agent_create config).max_iterations 0 0
      (initial_history (agentc_agent_create config).instructions input)
  simp only [agentc_agent_run, hagent, hstart, Bool.false_eq_true, if_false]
  exact ⟨h3 hmax, h1, by omega⟩

/-- C1 witness: the amended bounds at a concrete configuration. -/
theorem agent_run_call_bounds_witness :
    1 ≤ (agentc_agent_run (agentc_agent_create c1_cfg) env_text "ping").2.2 ∧
    (agentc_agent_run (agentc_agent_create c1_cfg) env_text "ping").2.2 ≤
      (agentc_agent_create c1_cfg).max_iterations ∧
    (agentc_agent_run (agentc_agent_create c1_cfg) env_text "ping").1.iterations =
      (agentc_agent_run (agentc_agent_create c1_cfg) env_text "ping").2.2 :=
  agent_run_call_bounds c1_cfg env_text "ping" (by decide)

/-- C2: on a run with max_iterations = 1 whose first (blocking) LLM
response contains tool calls, every requested tool is executed, the
assistant message and the tool-result messages are appended to history,
and the run then returns status max_iterations after exactly one LLM
driver invocation: the iteration cap is checked only at the top of the
next iteration, never between receiving tool calls and executing them. -/
theorem max_iter_one_executes_tools (config : agentc_agent_config) (env : llm_env)
    (input : String) (registry : agentc_tool_registry) (resp : agentc_chat_response)
    (hstream : config.stream = false)
    (hmax : config.max_iterations = 1)
    (htools : config.tools = some registry)
    (hresp : env.chat 0 = .ok resp)
    (htc : resp.tool_calls ≠ [])
    (hstart : hook_aborts config.hooks.on_start input = false)
    (hcontent : content_hook_aborts config.hooks.on_content resp.content = false)
    (hcall : hook_aborts config.hooks.on_tool_call resp.tool_calls = false)
    (hres : hook_aborts config.hooks.on_tool_result
      (agentc_tool_execute_all env.cjson_parse registry resp.tool_calls) = false) :
    (agentc_agent_run (agentc_agent_create config) env input).2.2 = 1 ∧
    (agentc_agent_run (agentc_agent_create config) env input).1.status =
      .max_iterations ∧
    (agentc_agent_run (agentc_agent_create config) env input).1.iterations = 1 ∧
    (agentc_agent_run (agentc_agent_create config) env input).2.1 =
      initial_history config.instructions input ++
        (agentc_message_create_assistant_tool_calls resp.content resp.tool_calls ::
          (agentc_tool_execute_all env.cjson_parse registry resp.tool_calls).filterMap
            (fun r => agentc_message_create_tool_result r.tool_call_id r.output)) := by
  have hhooks : (agentc_agent_create config).hooks = config.hooks := rfl
  have htools2 : (agentc_agent_create config).tools = config.tools := rfl
  have hstream2 : (agentc_agent_create config).stream = config.stream := rfl
  have hins : (agentc_agent_create config).instructions = config.instructions := rfl
  have hfuel : (agentc_agent_create config).max_iterations = 1 := by
    simp [agentc_agent_create, hmax]
  have hafter : react_after_response (agentc_agent_create config) env
      (initial_history config.instructions input) resp =
      .next resp.total_tokens
        ((initial_history config.instructions input ++
          [agentc_message_create_assistant_tool_calls resp.content resp.tool_calls]) ++
          (agentc_tool_execute_all env.cjson_parse registry resp.tool_calls).filterMap
            (fun r => agentc_message_create_tool_result r.tool_call_id r.output)) := by
    simp only [react_after_response]
    rw [if_pos (Or.inl htc)]
    simp only [htools2, htools, hhooks, hcall, hres, Bool.false_eq_true, if_false]
  have hstep : react_step (agentc_agent_create config) env 0
      (initial_history config.instructions input) =
      .next resp.total_tokens
        ((initial_history config.instructions input ++
          [agentc_message_create_assistant_tool_calls resp.content resp.tool_calls]) ++
          (agentc_tool_execute_all env.cjson_parse registry resp.tool_calls).filterMap
            (fun r => agentc_message_create_tool_result r.tool_call_id r.output)) := by
    simp only [react_step, hstream2, hstream, Bool.false_eq_true, if_false, hresp, hhooks,
      hcontent]
    exact hafter
  simp only [agentc_agent_run, hhooks, hstart, Bool.false_eq_true, if_false, hfuel, hins,
    run_react_loop, hstep]
  simp [List.append_assoc]

/-- C2 witness: the property at a concrete one-tool configuration. -/
theorem max_iter_one_executes_tools_witness :
    (agentc_agent_run (agentc_agent_create c2_cfg) c2_env "time?").2.2 = 1 ∧
    (agentc_agent_run (agentc_agent_create c2_cfg) c2_env "time?").1.status =
      .max_iterations ∧
    (agentc_agent_run (agentc_agent_create c2_cfg) c2_env "time?").1.iterations = 1 ∧
    (agentc_agent_run (agentc_agent_create c2_cfg) c2_env "time?").2.1 =
      initial_history c2_cfg.instructions "time?" ++
        (agentc_message_create_assistant_tool_calls c2_resp.content c2_resp.tool_calls ::
          (agentc_tool_execute_all c2_env.cjson_parse c2_reg c2_resp.tool_calls).filterMap
            (fun r => agentc_message_create_tool_result r.tool_call_id r.output)) :=
  max_iter_one_executes_tools c2_cfg c2_env "time?" c2_reg c2_resp rfl rfl rfl rfl
    (by decide) (by decide) (by decide) (by decide) (by decide)

/-- C3, counterexample: agentc_tool_execute on a registered tool with the
non-empty non-JSON arguments string oops does not invoke the handler
(whose output would be HANDLED with no error); it returns the
invalid-arguments error result instead. -/
theorem tool_execute_invalid_args_cex :
    (agentc_tool_execute parse_strict c3_reg c3_call).2.output ≠ some "HANDLED" ∧
    (agentc_tool_execute parse_strict c3_reg c3_call).2 =
      { tool_call_id := some "c1",
        output := some "\x7b\"error\": \"invalid arguments JSON\"\x7d",
        is_error := true } := by
  decide

/-- C3 (amended): when agentc_tool_execute receives a non-empty arguments
string that does not parse as JSON for a registered tool, the handler is
not invoked: the call returns status OK with an is_error result carrying
the invalid-arguments error JSON.  The handler is invoked with an empty
JSON object only when the arguments string is empty or NULL, and then
the result reflects what the handler returns. -/
theorem tool_execute_invalid_args (cjson_parse : String → Option JsonValue)
    (registry : agentc_tool_registry) (call : agentc_tool_call) (tool : agentc_tool)
    (hfound : agentc_tool_get registry call.name = some tool) :
    (∀ s, call.arguments = some s → s.length > 0 → cjson_parse s = none →
      agentc_tool_execute cjson_parse registry call =
        (AGENTC_OK,
         { tool_call_id := call.id,
           output := some "\x7b\"error\": \"invalid arguments JSON\"\x7d",
           is_error := true })) ∧
    ((call.arguments = none ∨ call.arguments = some "") →
      (tool.handler (JsonValue.obj [])).1 = AGENTC_OK →
      agentc_tool_execute cjson_parse registry call =
        (AGENTC_OK,
         { tool_call_id := call.id,
           output := some ((tool.handler (JsonValue.obj [])).2.getD "\x7b\x7d"),
           is_error := false })) := by
  constructor
  · intro s hs hlen hparse
    simp only [agentc_tool_execute, hfound, tool_parsed_args, hs]
    rw [if_pos hlen, hparse]
  · intro hargs hok
    have hparsed : tool_parsed_args cjson_parse call.arguments = some (JsonValue.obj []) := by
      rcases hargs with h | h <;> simp [tool_parsed_args, h]
    simp only [agentc_tool_execute, hfound, hparsed]
    rw [if_neg (by simp [hok])]

/-- C3 witness: the invalid-arguments path at a concrete call. -/
theorem tool_execute_invalid_args_witness :
    agentc_tool_execute parse_strict c3_reg c3_call =
      (AGENTC_OK,
       { tool_call_id := some "c1",
         output := some "\x7b\"error\": \"invalid arguments JSON\"\x7d",
         is_error := true }) :=
  (tool_execute_invalid_args parse_strict c3_reg c3_call c3_tool rfl).1
    "oops" rfl (by decide) rfl

/-- C4, counterexample: the missing-tool output contains a space after the
colon, so it is not exactly the claimed JSON string without the space. -/
theorem tool_not_found_string_cex :
    (agentc_tool_execute parse_strict [] c4_missing_call).2.output =
      some "\x7b\"error\": \"tool not found\"\x7d" ∧
    (agentc_tool_execute parse_strict [] c4_missing_call).2.is_error = true ∧
    (agentc_tool_execute parse_strict [] c4_missing_call).2.output ≠
      some "\x7b\"error\":\"tool not found\"\x7d" := by
  decide

/-- C4 (amended): an unregistered tool name yields a success status with an
is_error result whose output is the tool-not-found error JSON (with a
space after the colon); a handler returning a non-OK status yields a
success status with an is_error result whose output is the handler
output when the handler set one, and otherwise the synthesized
execution-failed error JSON carrying the numeric code. -/
theorem tool_execute_error_results (cjson_parse : String → Option JsonValue)
    (registry : agentc_tool_registry) (call : agentc_tool_call) :
    (agentc_tool_get registry call.name = none →
      agentc_tool_execute cjson_parse registry call =
        (AGENTC_OK,
         { tool_call_id := call.id,
           output := some "\x7b\"error\": \"tool not found\"\x7d",
           is_error := true })) ∧
    (∀ tool v, agentc_tool_get registry call.name = some tool →
      tool_parsed_args cjson_parse call.arguments = some v →
      (tool.handler v).1 ≠ AGENTC_OK →
      agentc_tool_execute cjson_parse registry call =
        (AGENTC_OK,
         { tool_call_id := call.id,
           output := some ((tool.handler v).2.getD
             ("\x7b\"error\": \"execution failed with code " ++
               toString (tool.handler v).1 ++ "\"\x7d")),
           is_error := true })) := by
  constructor
  · intro hnone
    simp [agentc_tool_execute, hnone]
  · intro tool v hfound hparsed herr
    simp only [agentc_tool_execute, hfound, hparsed]
    rw [if_pos herr]

/-- C4 witness: both error paths at concrete calls. -/
theorem tool_execute_error_results_witness :
    agentc_tool_execute parse_strict [] c4_missing_call =
      (AGENTC_OK,
       { tool_call_id := some "x1",
         output := some "\x7b\"error\": \"tool not found\"\x7d",
         is_error := true }) ∧
    agentc_tool_execute parse_strict c4_reg c4_fail_call =
      (AGENTC_OK,
       { tool_call_id := some "x2",
         output := some "\x7b\"error\": \"execution failed with code -7\"\x7d",
         is_error := true }) :=
  ⟨(tool_execute_error_results parse_strict [] c4_missing_call).1 rfl,
   (tool_execute_error_results parse_strict c4_reg c4_fail_call).2
     c4_fail_tool (JsonValue.obj []) rfl rfl (by decide)⟩

/-- C5, counterexample: a session holding agents 1 and 2 (created in that
order) destroys agent 1 first — creation order, not reverse creation
order. -/
theorem session_close_order_cex :
    ac_session_close (session_with_agents [1, 2]) =
      [session_event.destroy_agent 1, session_event.destroy_agent 2,
       session_event.free_session] ∧
    ac_session_close (session_with_agents [1, 2]) ≠
      ((session_with_agents [1, 2]).agents.reverse.map session_event.destroy_agent ++
        [session_event.free_session]) := by
  decide

/-- C5 (amended): closing a session built by registering agents in order
destroys them in that same creation order (the first agent created is
destroyed first), and only afterwards releases the session storage. -/
theorem session_close_creation_order (ids : List Nat)
    (hlen : ids.length ≤ MAX_AGENTS) :
    ac_session_close (session_with_agents ids) =
      ids.map session_event.destroy_agent ++ [session_event.free_session] := by
  have key : ∀ (l : List Nat) (s : ac_session),
      s.agents.length + l.length ≤ MAX_AGENTS →
      (l.foldl (fun s id => (ac_session_add_agent s id).2) s).agents =
        s.agents ++ l := by
    intro l
    induction l with
    | nil => intro s _; simp
    | cons a t ih =>
        intro s hs
        simp only [List.foldl_cons]
        have hlt : ¬ s.agents.length ≥ MAX_AGENTS := by
          simp only [List.length_cons] at hs
          omega
        have hadd : (ac_session_add_agent s a).2 = { agents := s.agents ++ [a] } := by
          simp [ac_session_add_agent, hlt]
        rw [hadd]
        have ht := ih { agents := s.agents ++ [a] }
          (by simp only [List.length_cons] at hs ⊢; simp; omega)
        rw [ht]
        simp
  have h0 := key ids ac_session_open (by simpa [ac_session_open] using hlen)
  simp only [session_with_agents, ac_session_close, h0]
  simp [ac_session_open]

/-- C5 witness: the creation-order trace for three concrete agents. -/
theorem session_close_creation_order_witness :
    ac_session_close (session_with_agents [5, 6, 7]) =
      [5, 6, 7].map session_event.destroy_agent ++ [session_event.free_session] :=
  session_close_creation_order [5, 6, 7] (by decide)

/-- C6, counterexample: a system message in the list with no instructions
set leaves the top-level system field empty — the content of the system
message is dropped, not delivered through the system field. -/
theorem anthropic_system_dropped_cex :
    (anthropic_build_body c6_params [c6_sys_msg]).system ≠ some "S" ∧
    (anthropic_build_body c6_params [c6_sys_msg]).messages = [] := by
  decide

/-- C6 (amended): the top-level system field of the Anthropic request body
carries params->instructions, no system-role entry ever appears in the
messages array, and the array lists exactly the non-system messages in
order; the content of system-role messages in the list is dropped rather
than moved into the system field. -/
theorem anthropic_system_field_no_inline (params : ac_llm_params)
    (messages : List ac_message) :
    (anthropic_build_body params messages).system = params.instructions ∧
    (∀ e ∈ (anthropic_build_body params messages).messages, e.1 ≠ "system") ∧
    (anthropic_build_body params messages).messages =
      (messages.filter (fun m => m.role != agentc_role.system)).map
        (fun m => (ac_role_to_string m.role, m.content)) := by
  refine ⟨rfl, ?_, rfl⟩
  intro e he
  simp only [anthropic_build_body, List.mem_map] at he
  obtain ⟨m, hm, rfl⟩ := he
  rw [List.mem_filter] at hm
  have hrole : m.role ≠ agentc_role.system := by
    simpa using hm.2
  cases h : m.role <;> simp [ac_role_to_string]
  exact absurd h hrole

/-- C6 witness: system field and non-system entry at concrete inputs. -/
theorem anthropic_system_field_no_inline_witness :
    (anthropic_build_body c6_params2 [c6_user_msg]).system = some "inst" ∧
    ("user", some "hi").1 ≠ "system" :=
  ⟨(anthropic_system_field_no_inline c6_params2 [c6_user_msg]).1,
   (anthropic_system_field_no_inline c6_params2 [c6_user_msg]).2.1
     ("user", some "hi") (by decide)⟩

/-- Helper: a list equals the drop of its length difference exactly when
it is a suffix (character-list form of the strcmp-at-offset idiom). -/
theorem drop_suffix_iff (l s : List Char) :
    (s.length ≤ l.length ∧ l.drop (l.length - s.length) = s) ↔ s <:+ l := by
  constructor
  · rintro ⟨hle, hdrop⟩
    rw [← hdrop]
    exact List.drop_suffix _ _
  · intro hsuf
    refine ⟨hsuf.length_le, ?_⟩
    obtain ⟨t, ht⟩ := hsuf
    rw [← ht, List.length_append, Nat.add_sub_cancel, List.drop_left]

/-- C9: ac_mcp_create selects the SSE transport exactly when the server
URL ends in /sse, /sse/, or /events, and the Streamable-HTTP transport
for every other URL. -/
theorem mcp_transport_selection_iff (u : String) :
    (ac_mcp_create_transport u = .sse ↔ spec_sse_suffix u) ∧
    (¬ spec_sse_suffix u → ac_mcp_create_transport u = .streamable_http) := by
  have h4 : ("/sse".toList : List Char).length = 4 := by decide
  have h5 : ("/sse/".toList : List Char).length = 5 := by decide
  have h7 : ("/events".toList : List Char).length = 7 := by decide
  have hmain : is_sse_url (some u) = true ↔ spec_sse_suffix u := by
    simp only [is_sse_url, spec_sse_suffix]
    rw [← drop_suffix_iff u.toList "/sse".toList,
        ← drop_suffix_iff u.toList "/sse/".toList,
        ← drop_suffix_iff u.toList "/events".toList]
    rw [h4, h5, h7]
    by_cases p1 : 4 ≤ u.toList.length ∧ u.toList.drop (u.toList.length - 4) = "/sse".toList
    · simp [p1]
    · by_cases p2 : 5 ≤ u.toList.length ∧ u.toList.drop (u.toList.length - 5) = "/sse/".toList
      · simp [p1, p2]
      · by_cases p3 : 7 ≤ u.toList.length ∧
            u.toList.drop (u.toList.length - 7) = "/events".toList
        · simp [p1, p2, p3]
        · simp [p1, p2, p3]
  have hiff : ac_mcp_create_transport u = .sse ↔ spec_sse_suffix u := by
    constructor
    · intro h
      apply hmain.mp
      by_contra hfalse
      simp only [Bool.not_eq_true] at hfalse
      simp [ac_mcp_create_transport, hfalse] at h
    · intro h
      simp [ac_mcp_create_transport, hmain.mpr h]
  refine ⟨hiff, ?_⟩
  intro hns
  cases h : ac_mcp_create_transport u
  · exact absurd (hiff.mp h) hns
  · rfl

/-- C9 witness: a concrete /sse URL selects the SSE transport. -/
theorem mcp_transport_selection_iff_witness :
    ac_mcp_create_transport "http://h/sse" = .sse :=
  (mcp_transport_selection_iff "http://h/sse").1.mpr
    (Or.inl ⟨"http://h".toList, by decide⟩)

/-- Helper: the queue scan returns an entry carrying exactly the request
id and leaves every entry with a different id in the queue. -/
theorem sse_find_response_spec (rid : Int) :
    ∀ (queue : List sse_pending_response) (json : String)
      (rest : List sse_pending_response),
      sse_find_response rid queue = some (json, rest) →
      sse_pending_response.mk rid json ∈ queue ∧
      ∀ p ∈ queue, p.id ≠ rid → p ∈ rest := by
  intro queue
  induction queue with
  | nil =>
      intro json rest h
      simp [sse_find_response] at h
  | cons p t ih =>
      intro json rest h
      simp only [sse_find_response] at h
      by_cases hid : p.id = rid
      · rw [if_pos hid] at h
        have hj : p.json = json ∧ t = rest := by simpa using h
        constructor
        · have hp : p = sse_pending_response.mk rid json := by
            cases p
            simp_all
          rw [← hp]
          exact List.mem_cons_self _ _
        · intro x hx hxid
          rcases List.mem_cons.mp hx with hxp | hxt
          · exact absurd (hxp ▸ hid) hxid
          · exact hj.2 ▸ hxt
      · rw [if_neg hid] at h
        cases hf : sse_find_response rid t with
        | none => rw [hf] at h; simp at h
        | some q =>
            rw [hf] at h
            simp only [Option.map_some'] at h
            have hq : q.1 = json ∧ p :: q.2 = rest := by
              cases q
              simpa using h
            obtain ⟨hmem, hrest⟩ := ih q.1 q.2 (by rw [hf])
            constructor
            · rw [← hq.1]
              exact List.mem_cons_of_mem _ hmem
            · intro x hx hxid
              rcases List.mem_cons.mp hx with hxp | hxt
              · rw [← hq.2, hxp]
                exact List.mem_cons_self _ _
              · rw [← hq.2]
                exact List.mem_cons_of_mem _ (hrest x hxt hxid)

/-- Helper: a found result of the polling loop comes from the queue view
of one of the polled rounds. -/
theorem sse_wait_loop_found (sched : Nat → sse_poll_view) (rid : Int) :
    ∀ (fuel k : Nat) (json : String) (rest : List sse_pending_response),
      sse_wait_loop sched rid k fuel = .found json rest →
      ∃ j, k ≤ j ∧ j < k + fuel ∧
        sse_find_response rid (sched j).responses = some (json, rest) := by
  intro fuel
  induction fuel with
  | zero =>
      intro k json rest h
      simp [sse_wait_loop] at h
  | succ n ih =>
      intro k json rest h
      simp only [sse_wait_loop] at h
      cases hf : sse_find_response rid (sched k).responses with
      | some q =>
          rw [hf] at h
          cases q with
          | mk qj qr =>
              have hqr : qj = json ∧ qr = rest := by simpa using h
              exact ⟨k, le_refl _, by omega, by rw [hf, hqr.1, hqr.2]⟩
      | none =>
          rw [hf] at h
          by_cases hdead : (sched k).sse_running = false ∨ (sched k).sse_connected < 0
          · rw [if_pos hdead] at h
            simp at h
          · rw [if_neg hdead] at h
            obtain ⟨j, hj1, hj2, hj3⟩ := ih (k + 1) json rest h
            exact ⟨j, by omega, by omega, hj3⟩

/-- Helper: when every polled round shows a live reader and no matching
entry, the polling loop times out. -/
theorem sse_wait_loop_timeout (sched : Nat → sse_poll_view) (rid : Int) :
    ∀ (fuel k : Nat),
      (∀ j, k ≤ j → j < k + fuel →
        (sched j).sse_running = true ∧ 0 ≤ (sched j).sse_connected ∧
        sse_find_response rid (sched j).responses = none) →
      sse_wait_loop sched rid k fuel = .timed_out := by
  intro fuel
  induction fuel with
  | zero =>
      intro k _
      simp [sse_wait_loop]
  | succ n ih =>
      intro k hall
      obtain ⟨hrun, hconn, hnone⟩ := hall k (le_refl _) (by omega)
      simp only [sse_wait_loop, hnone]
      rw [if_neg]
      · exact ih (k + 1) (fun j hj1 hj2 => hall j (by omega) (by omega))
      · rintro (hf | hc)
        · rw [hrun] at hf
          exact Bool.noConfusion hf
        · omega

/-- C7, counterexample: a JSON-RPC response arriving directly in the POST
body is handed to the caller without any id check — here the caller of
request id 7 receives a string that was never a queued response at all
(the queued id-7 entry is not what is returned). -/
theorem sse_direct_body_no_id_check_cex :
    sse_response_of (sse_request true (some "/msg") (.ok 200 (some "directbody"))
      (fun _ => true) 7 200 c7_sched) = some "directbody" ∧
    (∀ k, sse_pending_response.mk 7 "directbody" ∉ (c7_sched k).responses) := by
  constructor
  · rfl
  · intro k
    simp [c7_sched]

/-- C7 (amended): when the POST body does not itself contain a JSON-RPC
response, every response string sse_request returns for a non-zero
request id is a queued response whose id equals the request id, taken
from one of the polled queue views, and entries with other ids are left
in the queue; when no matching entry appears during any polled round
while the reader stays alive, the call returns the timeout error.  A
JSON-RPC response in the POST body itself is returned without an id
check. -/
theorem sse_queue_response_id_match (ep : String) (post_status : Int)
    (body : Option String) (is_jsonrpc : String → Bool) (rid : Int)
    (timeout_ms : Nat) (sched : Nat → sse_poll_view)
    (hnd : sse_direct_body is_jsonrpc body = none)
    (hrid : rid ≠ 0) :
    (∀ json rest,
      sse_request true (some ep) (.ok post_status body) is_jsonrpc rid
          timeout_ms sched = .queued json rest →
      ∃ k, k < sse_poll_rounds timeout_ms ∧
        sse_pending_response.mk rid json ∈ (sched k).responses ∧
        ∀ p ∈ (sched k).responses, p.id ≠ rid → p ∈ rest) ∧
    ((∀ k, k < sse_poll_rounds timeout_ms →
        (sched k).sse_running = true ∧ 0 ≤ (sched k).sse_connected ∧
        sse_find_response rid (sched k).responses = none) →
      sse_request true (some ep) (.ok post_status body) is_jsonrpc rid
          timeout_ms sched = .err AGENTC_ERR_TIMEOUT) := by
  have hred : sse_request true (some ep) (.ok post_status body) is_jsonrpc rid
      timeout_ms sched =
      (match sse_wait_loop sched rid 0 (sse_poll_rounds timeout_ms) with
       | .found json rest => .queued json rest
       | .reader_dead => .err AGENTC_ERR_NOT_CONNECTED
       | .timed_out => .err AGENTC_ERR_TIMEOUT) := by
    simp [sse_request, hnd, hrid]
  constructor
  · intro json rest h
    rw [hred] at h
    cases hw : sse_wait_loop sched rid 0 (sse_poll_rounds timeout_ms) with
    | found j r =>
        rw [hw] at h
        have hjr : j = json ∧ r = rest := by simpa using h
        obtain ⟨k, _, hk2, hk3⟩ :=
          sse_wait_loop_found sched rid (sse_poll_rounds timeout_ms) 0 j r hw
        rw [hjr.1, hjr.2] at hk3
        obtain ⟨hmem, hothers⟩ := sse_find_response_spec rid (sched k).responses
          json rest hk3
        exact ⟨k, by omega, hmem, hothers⟩
    | reader_dead => rw [hw] at h; simp at h
    | timed_out => rw [hw] at h; simp at h
  · intro hall
    rw [hred, sse_wait_loop_timeout sched rid (sse_poll_rounds timeout_ms) 0
      (fun j hj1 hj2 => hall j (by omega))]

/-- C7 witness: the queued id-7 response is drawn from a polled round at a
concrete schedule. -/
theorem sse_queue_response_id_match_witness :
    ∃ k, k < sse_poll_rounds 100 ∧
      sse_pending_response.mk 7 "queued7" ∈ (c7_sched k).responses ∧
      ∀ p ∈ (c7_sched k).responses, p.id ≠ 7 → p ∈ [] :=
  (sse_queue_response_id_match "/msg" 202 none (fun _ => true) 7 100 c7_sched
    rfl (by decide)).1 "queued7" [] (by decide)

/-- Helper: the entries split into borrowed and idle ones. -/
theorem pool_count_partition (entries : List pool_entry) :
    entries.length = pool_in_use_count entries + pool_idle_count entries := by
  induction entries with
  | nil => simp [pool_in_use_count, pool_idle_count]
  | cons e t ih =>
      simp only [List.length_cons, pool_in_use_count, pool_idle_count,
        List.filter_cons] at ih ⊢
      cases h : e.in_use <;> simp [h] <;> omega

/-- Helper: the bookkeeping of a well-formed pool implies the invariant
as the specification states it. -/
theorem pool_wf_inv (s : pool_state) (h : pool_wf s) : pool_inv s := by
  obtain ⟨h1, h2, h3⟩ := h
  have hp := pool_count_partition s.entries
  exact ⟨by omega, by omega, h3⟩

/-- Helper: the cleanup scan never raises the running total, keeps the
total in step with the number of surviving entries, and removes only
idle entries. -/
theorem cleanup_loop_spec (cutoff : Nat) :
    ∀ (entries : List pool_entry) (total : Nat),
      (cleanup_loop cutoff entries total).2 ≤ total ∧
      (cleanup_loop cutoff entries total).2 + entries.length =
        total + (cleanup_loop cutoff entries total).1.length ∧
      pool_in_use_count (cleanup_loop cutoff entries total).1 =
        pool_in_use_count entries := by
  intro entries
  induction entries with
  | nil => intro total; simp [cleanup_loop]
  | cons e t ih =>
      intro total
      by_cases hrem : e.in_use = false ∧ e.last_used_ms < cutoff ∧ total > 1
      · simp only [cleanup_loop, if_pos hrem]
        obtain ⟨ha, hb, hc⟩ := ih (total - 1)
        refine ⟨by omega, by simp only [List.length_cons]; omega, ?_⟩
        rw [hc]
        simp [pool_in_use_count, List.filter_cons, hrem.1]
      · simp only [cleanup_loop, if_neg hrem]
        obtain ⟨ha, hb, hc⟩ := ih total
        refine ⟨ha, by simp only [List.length_cons]; omega, ?_⟩
        simp only [pool_in_use_count, List.filter_cons] at hc ⊢
        cases h : e.in_use <;> simp [h] <;> omega

/-- Helper: idle cleanup preserves well-formedness. -/
theorem cleanup_wf (s : pool_state) (now : Nat) (h : pool_wf s) :
    pool_wf (cleanup_idle_connections s now) := by
  unfold cleanup_idle_connections
  by_cases h0 : s.idle_timeout_ms = 0
  · rw [if_pos h0]
    exact h
  · rw [if_neg h0]
    unfold pool_wf
    dsimp only
    obtain ⟨ha, hb, hc⟩ :=
      cleanup_loop_spec (pool_cutoff now s.idle_timeout_ms) s.entries s.total_count
    obtain ⟨h1, h2, h3⟩ := h
    refine ⟨by omega, by rw [hc]; exact h2, by omega⟩

/-- Helper: marking the first idle entry borrowed keeps the length and
raises the borrowed count by one. -/
theorem mark_first_idle_spec (now : Nat) :
    ∀ (entries : List pool_entry) (c : Nat) (es : List pool_entry),
      mark_first_idle now entries = some (c, es) →
      es.length = entries.length ∧
      pool_in_use_count es = pool_in_use_count entries + 1 := by
  intro entries
  induction entries with
  | nil =>
      intro c es h
      simp [mark_first_idle] at h
  | cons e t ih =>
      intro c es h
      simp only [mark_first_idle] at h
      by_cases hidle : e.in_use = false
      · rw [if_pos hidle] at h
        have hh : e.client = c ∧
            ({ e with in_use := true, last_used_ms := now } :: t) = es := by
          simpa using h
        rw [← hh.2]
        refine ⟨by simp, ?_⟩
        simp [pool_in_use_count, List.filter_cons, hidle]
      · rw [if_neg hidle] at h
        cases hm : mark_first_idle now t with
        | none => rw [hm] at h; simp at h
        | some q =>
            rw [hm] at h
            cases q with
            | mk qc qes =>
                have hh : qc = c ∧ e :: qes = es := by simpa using h
                obtain ⟨h1, h2⟩ := ih qc qes hm
                rw [← hh.2]
                have hbusy : e.in_use = true := by
                  cases hu : e.in_use
                  · exact absurd hu hidle
                  · rfl
                refine ⟨by simp [h1], ?_⟩
                simp only [pool_in_use_count, List.filter_cons, hbusy] at h2 ⊢
                simp at h2 ⊢
                omega

/-- Helper: one wakeup of the wait loop preserves well-formedness. -/
theorem pool_wait_step_wf (now : Nat) (s : pool_state)
    (r : pool_acquire_outcome × pool_state)
    (hs : pool_wf s) (h : pool_wait_step now s = some r) : pool_wf r.2 := by
  simp only [pool_wait_step] at h
  by_cases hsd : s.shutting_down = true
  · rw [if_pos hsd] at h
    have hr := Option.some.inj h
    rw [← hr]
    exact hs
  · rw [if_neg hsd] at h
    cases hm : mark_first_idle now s.entries with
    | none => rw [hm] at h; simp at h
    | some q =>
        rw [hm] at h
        cases q with
        | mk c es =>
            have hr := Option.some.inj h
            rw [← hr]
            obtain ⟨hl, hcnt⟩ := mark_first_idle_spec now s.entries c es hm
            obtain ⟨h1, h2, h3⟩ := hs
            exact ⟨by simpa [hl] using h1, by simp [hcnt, h2], h3⟩

/-- Helper: the wait loop preserves well-formedness when each observed
wakeup state is well-formed. -/
theorem pool_wait_loop_wf (now : Nat) :
    ∀ (wakes : List pool_state) (s : pool_state),
      pool_wf s → (∀ w ∈ wakes, pool_wf w) →
      pool_wf (pool_wait_loop now wakes s).2 := by
  intro wakes
  induction wakes with
  | nil =>
      intro s hs _
      simp only [pool_wait_loop]
      cases hstep : pool_wait_step now s with
      | some r => exact pool_wait_step_wf now s r hs hstep
      | none => exact hs
  | cons w rest ih =>
      intro s hs hw
      simp only [pool_wait_loop]
      cases hstep : pool_wait_step now s with
      | some r => exact pool_wait_step_wf now s r hs hstep
      | none =>
          exact ih w (hw w (List.mem_cons_self _ _))
            (fun x hx => hw x (List.mem_cons_of_mem _ hx))

/-- Helper: releasing the first matching borrowed entry keeps the length
and lowers the borrowed count by one. -/
theorem pool_update_entry_spec (c now : Nat) :
    ∀ (entries : List pool_entry) (e : pool_entry),
      find_entry_by_client c entries = some e → e.in_use = true →
      (pool_update_entry c now entries).length = entries.length ∧
      pool_in_use_count (pool_update_entry c now entries) + 1 =
        pool_in_use_count entries := by
  intro entries
  induction entries with
  | nil =>
      intro e h _
      simp [find_entry_by_client] at h
  | cons a t ih =>
      intro e h hin
      simp only [find_entry_by_client] at h
      by_cases hc : a.client = c
      · rw [if_pos hc] at h
        have ha : a = e := Option.some.inj h
        simp only [pool_update_entry, if_pos hc]
        refine ⟨by simp, ?_⟩
        have hause : a.in_use = true := ha ▸ hin
        simp [pool_in_use_count, List.filter_cons, hause]
      · rw [if_neg hc] at h
        obtain ⟨h1, h2⟩ := ih e h hin
        simp only [pool_update_entry, if_neg hc]
        refine ⟨by simp [h1], ?_⟩
        simp only [pool_in_use_count, List.filter_cons] at h2 ⊢
        cases hu : a.in_use <;> simp [hu] <;> omega

/-- Helper: every path of ac_http_pool_acquire leaves a well-formed pool
at its mutex release. -/
theorem pool_acquire_wf (s : pool_state) (now : Nat) (create_ok : Bool)
    (new_client : Nat) (wakes : List pool_state)
    (hs : pool_wf s) (hwakes : ∀ w ∈ wakes, pool_wf w) :
    pool_wf (ac_http_pool_acquire s now create_ok new_client wakes).2 := by
  unfold ac_http_pool_acquire
  by_cases hinit : s.initialized = false ∨ s.shutting_down = true
  · rw [if_pos hinit]
    exact hs
  · rw [if_neg hinit]
    dsimp only
    have hs1 : pool_wf (cleanup_idle_connections
        { s with total_acquires := s.total_acquires + 1 } now) :=
      cleanup_wf _ now hs
    cases hm : mark_first_idle now (cleanup_idle_connections
        { s with total_acquires := s.total_acquires + 1 } now).entries with
    | some q =>
        cases q with
        | mk c es =>
            obtain ⟨hl, hcnt⟩ := mark_first_idle_spec now _ c es hm
            obtain ⟨h1, h2, h3⟩ := hs1
            refine ⟨?_, ?_, ?_⟩ <;> dsimp only
            · rw [hl]
              exact h1
            · rw [hcnt, h2]
            · exact h3
    | none =>
        by_cases hcap : (cleanup_idle_connections
            { s with total_acquires := s.total_acquires + 1 } now).total_count <
              (cleanup_idle_connections
                { s with total_acquires := s.total_acquires + 1 } now).max_connections ∧
            create_ok = true
        · rw [if_pos hcap]
          obtain ⟨h1, h2, h3⟩ := hs1
          refine ⟨?_, ?_, ?_⟩ <;> dsimp only
          · rw [h1]
            simp
          · simp [pool_in_use_count, List.filter_cons, h2]
          · omega
        · rw [if_neg hcap]
          exact pool_wait_loop_wf now wakes _ hs1 hwakes

/-- Helper: every path of ac_http_pool_release leaves a well-formed pool
at its mutex release. -/
theorem pool_release_wf (s : pool_state) (c now : Nat) (hs : pool_wf s) :
    pool_wf (ac_http_pool_release s c now).1 := by
  unfold ac_http_pool_release
  by_cases hinit : s.initialized = false
  · rw [if_pos hinit]
    exact hs
  · rw [if_neg hinit]
    cases hf : find_entry_by_client c s.entries with
    | none => exact hs
    | some e =>
        dsimp only
        by_cases hin : e.in_use = false
        · rw [if_pos hin]
          exact hs
        · rw [if_neg hin]
          have hin2 : e.in_use = true := by
            cases hu : e.in_use
            · exact absurd hu hin
            · rfl
          obtain ⟨h1, h2⟩ := pool_update_entry_spec c now s.entries e hf hin2
          obtain ⟨g1, g2, g3⟩ := hs
          refine ⟨?_, ?_, ?_⟩ <;> dsimp only
          · omega
          · omega
          · exact g3

/-- C8: at every mutex release of acquire and release, a pool whose
bookkeeping is well formed satisfies total = active + idle,
active at most total and total at most max_connections; acquire (on any
of its paths, including cleanup, creation and the condition-variable
wait) and release preserve the bookkeeping and hence the invariant. -/
theorem http_pool_invariant_preserved (s : pool_state) (now : Nat)
    (create_ok : Bool) (new_client : Nat) (wakes : List pool_state) (c : Nat)
    (hs : pool_wf s) (hwakes : ∀ w ∈ wakes, pool_wf w) :
    pool_inv s ∧
    pool_wf (ac_http_pool_acquire s now create_ok new_client wakes).2 ∧
    pool_inv (ac_http_pool_acquire s now create_ok new_client wakes).2 ∧
    pool_wf (ac_http_pool_release s c now).1 ∧
    pool_inv (ac_http_pool_release s c now).1 := by
  have hacq := pool_acquire_wf s now create_ok new_client wakes hs hwakes
  have hrel := pool_release_wf s c now hs
  exact ⟨pool_wf_inv s hs, hacq, pool_wf_inv _ hacq, hrel, pool_wf_inv _ hrel⟩

/-- C8 witness: the invariant around concrete acquire and release. -/
theorem http_pool_invariant_preserved_witness :
    pool_inv s8 ∧
    pool_wf (ac_http_pool_acquire s8 10 true 3 []).2 ∧
    pool_inv (ac_http_pool_acquire s8 10 true 3 []).2 ∧
    pool_wf (ac_http_pool_release s8 1 10).1 ∧
    pool_inv (ac_http_pool_release s8 1 10).1 :=
  http_pool_invariant_preserved s8 10 true 3 [] 1 ⟨by decide, by decide, by decide⟩
    (fun w hw => absurd hw (by simp))

/-- C10: releasing a client the pool does not track, or whose entry is
not marked in use (a double release), returns the pool state unchanged
and signals no waiter. -/
theorem pool_release_unknown_noop (s : pool_state) (c now : Nat)
    (h : find_entry_by_client c s.entries = none ∨
         ∃ e, find_entry_by_client c s.entries = some e ∧ e.in_use = false) :
    ac_http_pool_release s c now = (s, false) := by
  unfold ac_http_pool_release
  by_cases hinit : s.initialized = false
  · rw [if_pos hinit]
  · rw [if_neg hinit]
    rcases h with h | ⟨e, he, hin⟩
    · rw [h]
    · rw [he]
      dsimp only
      rw [if_pos hin]

/-- C10 witness: an unknown client and a double release at a concrete
pool state. -/
theorem pool_release_unknown_noop_witness :
    ac_http_pool_release s8 99 5 = (s8, false) ∧
    ac_http_pool_release s8 2 5 = (s8, false) :=
  ⟨pool_release_unknown_noop s8 99 5 (Or.inl (by decide)),
   pool_release_unknown_noop s8 2 5
     (Or.inr ⟨{ client := 2, last_used_ms := 0, in_use := false },
       by decide, by decide⟩)⟩
